import Mathlib

/-
Verification of the metrics module of the numerox repository
(src/numerox/metrics.py) against its natural-language specification.

The module is shallowly embedded below.  Python floats are modelled as exact
numbers: prediction scores and ground-truth labels are rationals/booleans, and
statistic values live in ℝ (log-loss and standard deviations are genuinely
irrational).  A missing value (NaN cell) is modelled as `Option.none`; a raised
Python exception is modelled with `Except`.  The external collaborators
(pandas, numpy, sklearn, scipy, and the numerox data module, none of which are
part of src/) are embedded through their documented semantics:
  * `DataFrame.dropna()` drops every row that contains at least one NaN
    (pandas default `how='any'`),
  * `DataFrame.mean`/`std` skip NaN (`skipna=True`), `std` uses `ddof=1`,
  * comparing NaN with `<` yields False,
  * `numpy.ndarray.std()` uses `ddof=0`; `min`/`max` of an empty array raise,
    `mean`/`std` of an empty array give NaN; any NaN propagates to NaN,
  * `sklearn.metrics.log_loss` / `roc_auc_score` raise ValueError when the
    ground truth contains a single class; `accuracy_score` does not,
  * metric values of NaN-contaminated inputs are NaN (raised-and-caught or
    propagated, in either case the recorded cell is NaN),
  * `MiniBatchKMeans` (already fitted) and `ks_2samp` are taken as opaque
    function parameters; only their types matter for the claims below.
-/

/-- The fixed benchmark constant of metrics.py line 12 (`LOGLOSS_BENCHMARK = 0.693`). -/
noncomputable def LOGLOSS_BENCHMARK : ℝ := 693 / 1000

/-- Mean of a list of rationals (`numpy.mean` on an exact model). -/
def qmean (l : List ℚ) : ℚ := l.sum / l.length

/-- Population variance, divisor `n` (`numpy.ndarray.var`, `ddof=0`),
on the exact rational model of a float array. -/
def pop_var (l : List ℚ) : ℚ := ((l.map (fun x => (x - qmean l) ^ 2)).sum) / l.length

/-- Mean of a list of reals (used for pandas column means after NaN removal). -/
noncomputable def rmean (l : List ℝ) : ℝ := l.sum / l.length

/-- Sample variance, divisor `n - 1` (pandas `DataFrame.std` squared, the
default `ddof=1`), on a list of reals. -/
noncomputable def sample_var (l : List ℝ) : ℝ :=
  ((l.map (fun x => (x - rmean l) ^ 2)).sum) / ((l.length : ℝ) - 1)

/-- Minimum of a float array (`numpy.ndarray.min` over a nonempty array). -/
def qlist_min (l : List ℚ) : ℚ := l.foldl min (l.headD 0)

/-- Maximum of a float array (`numpy.ndarray.max` over a nonempty array). -/
def qlist_max (l : List ℚ) : ℚ := l.foldl max (l.headD 0)

/-- The clipping constant of `sklearn.metrics.log_loss` (`eps = 1e-15`). -/
def CLIP_EPS : ℚ := 1 / 10 ^ 15

/-- Clip a probability into `[eps, 1 - eps]` as `sklearn.metrics.log_loss` does. -/
def clip_prob (p : ℚ) : ℚ := max CLIP_EPS (min (1 - CLIP_EPS) p)

/-- One row's contribution to `sklearn.metrics.log_loss`: the binary prediction
`p` is expanded to the two-column `[1 - p, p]`, clipped, renormalised, and the
log of the probability assigned to the true class is taken. -/
noncomputable def row_log_loss (yi : Bool) (p : ℚ) : ℝ :=
  let c1 := clip_prob p
  let c0 := clip_prob (1 - p)
  if yi then Real.log ((c1 / (c0 + c1) : ℚ) : ℝ) else Real.log ((c0 / (c0 + c1) : ℚ) : ℝ)

/-- `sklearn.metrics.log_loss` on clean (NaN-free) aligned arrays:
minus the mean of the per-row log-probabilities of the true class. -/
noncomputable def log_loss (y : List Bool) (yhat : List ℚ) : ℝ :=
  -(((y.zip yhat).map (fun r => row_log_loss r.1 r.2)).sum / (((y.zip yhat).length : ℕ) : ℝ))

/-- Score of one (positive, negative) pair in the Mann–Whitney formulation of
ROC AUC: 1 when the positive is ranked above the negative, 1/2 on a tie. -/
def pair_score (p n : ℚ) : ℚ := if n < p then 1 else if p = n then 1 / 2 else 0

/-- `sklearn.metrics.roc_auc_score` on clean aligned arrays with both classes
present, via the equivalent Mann–Whitney statistic. -/
def roc_auc_score (y : List Bool) (yhat : List ℚ) : ℚ :=
  let z := y.zip yhat
  let pos := z.filterMap (fun r => if r.1 then some r.2 else none)
  let neg := z.filterMap (fun r => if r.1 then none else some r.2)
  ((pos.map (fun p => (neg.map (pair_score p)).sum)).sum) / (pos.length * neg.length)

/-- `sklearn.metrics.accuracy_score` on aligned boolean arrays:
fraction of agreeing positions.  It is defined for single-class ground truth. -/
def accuracy_score (y : List Bool) (yh : List Bool) : ℚ :=
  (((y.zip yh).filter (fun r => r.1 == r.2)).length : ℚ) / (((y.zip yh).length : ℕ) : ℚ)

/-- The thresholding of metrics.py lines 154–155: `yh = zeros; yh[yhat >= 0.5] = 1`.
A NaN prediction compares False against 0.5 and is therefore thresholded to
class 0, not to NaN. -/
def acc_threshold (o : Option ℚ) : Bool :=
  match o with
  | some v => decide ((1 : ℚ) / 2 ≤ v)
  | none => false

/-- The statistic names `calc_metrics_arrays` recognises (metrics.py lines 137–171). -/
def knownMetric (col : String) : Bool :=
  col ∈ ["logloss", "logloss_pass", "auc", "acc", "ymin", "ymax", "ymean", "ystd", "length"]

/-- Guard under which `log_loss`/`roc_auc_score` return a value rather than
NaN: both input arrays are NaN-free and both classes occur in the ground
truth (sklearn raises ValueError on a single-class `y_true`, and NaN
contamination yields a NaN result). -/
def llDefined (y : List (Option Bool)) (yhat : List (Option ℚ)) : Bool :=
  y.all Option.isSome && yhat.all Option.isSome
    && decide (true ∈ y.filterMap id) && decide (false ∈ y.filterMap id)

/-- One branch of `calc_metrics_arrays` (metrics.py lines 137–172): the value
of the statistic named `col` for the era/pair arrays `y` (ground truth,
possibly NaN after the join) and `yhat` (predictions, possibly NaN).
`Except.error` models an uncaught exception (unknown statistic name, or the
uncaught `yhat.min()`/`yhat.max()` of an empty array); a NaN cell is `none`. -/
noncomputable def calc_metric_col (y : List (Option Bool)) (yhat : List (Option ℚ))
    (col : String) : Except String (Option ℝ) :=
  if col = "logloss" then
    .ok (if llDefined y yhat then some (log_loss (y.filterMap id) (yhat.filterMap id)) else none)
  else if col = "logloss_pass" then
    .ok (if llDefined y yhat then
          some (if log_loss (y.filterMap id) (yhat.filterMap id) < LOGLOSS_BENCHMARK
                then (1 : ℝ) else 0)
         else none)
  else if col = "auc" then
    .ok (if llDefined y yhat then
          some ((roc_auc_score (y.filterMap id) (yhat.filterMap id) : ℚ) : ℝ) else none)
  else if col = "acc" then
    .ok (if y.all Option.isSome && !y.isEmpty then
          some ((accuracy_score (y.filterMap id) (yhat.map acc_threshold) : ℚ) : ℝ) else none)
  else if col = "ymin" then
    if yhat.isEmpty then .error "zero-size array to reduction operation minimum"
    else .ok (if yhat.all Option.isSome then
          some ((qlist_min (yhat.filterMap id) : ℚ) : ℝ) else none)
  else if col = "ymax" then
    if yhat.isEmpty then .error "zero-size array to reduction operation maximum"
    else .ok (if yhat.all Option.isSome then
          some ((qlist_max (yhat.filterMap id) : ℚ) : ℝ) else none)
  else if col = "ymean" then
    .ok (if yhat.all Option.isSome && !yhat.isEmpty then
          some ((qmean (yhat.filterMap id) : ℚ) : ℝ) else none)
  else if col = "ystd" then
    .ok (if yhat.all Option.isSome && !yhat.isEmpty then
          some (Real.sqrt ((pop_var (yhat.filterMap id) : ℚ) : ℝ)) else none)
  else if col = "length" then
    .ok (some ((yhat.length : ℕ) : ℝ))
  else
    .error ("unknown metric (" ++ col ++ ")")

/-- Sequencing a fallible computation over a list, stopping at the first
exception, as the Python `for col in columns` loop does. -/
def emapM {α β : Type} (f : α → Except String β) : List α → Except String (List β)
  | [] => .ok []
  | a :: as =>
    match f a with
    | .error e => .error e
    | .ok b =>
      match emapM f as with
      | .error e => .error e
      | .ok bs => .ok (b :: bs)

/-- metrics.py lines 134–173, `calc_metrics_arrays(y, yhat, columns)`:
the list of statistic values for the requested columns, in order. -/
noncomputable def calc_metrics_arrays (y : List (Option Bool)) (yhat : List (Option ℚ))
    (columns : List String) : Except String (List (Option ℝ)) :=
  emapM (calc_metric_col y yhat) columns

/-- One row of the dataset (the external Data object): a stable integer row
index, an era code, a region code, and one ground-truth label per tournament
(the label of tournament `t` is `labels.getD (t - 1) false`; metrics.py reads
it through the column named `nx.tournament_str(t)`). -/
structure DataRow where
  idx : ℕ
  era : ℕ
  region : ℕ
  labels : List Bool

/-- The dataset: `data.df` restricted to the columns metrics.py reads
(era, region and the tournament label columns). -/
structure Data where
  rows : List DataRow

/-- The prediction object: `prediction.df` has one column per
(model name, tournament) pair and one row per indexed prediction;
a cell is `none` where no prediction was made (NaN). -/
structure Prediction where
  pairs : List (String × ℕ)
  rows : List (ℕ × List (Option ℚ))

/-- One row of the merged frame of metrics.py line 34: the data-side columns
are `none` when the data side is missing (right join on an index absent from
the data), the prediction cells are `none` where unmatched or unobserved. -/
structure MRow where
  era : Option ℕ
  region : Option ℕ
  labels : Option (List Bool)
  yhats : List (Option ℚ)

/-- `pd.merge(data_df, yhats_df, left_index=True, right_index=True, how=how)`
for the three join modes used (`left`, `right`, `inner`), assuming unique row
indices on both sides (as numerox data frames have). -/
def mergeRows (data : Data) (p : Prediction) (yrows : List (ℕ × List (Option ℚ)))
    (how : String) : List MRow :=
  if how = "left" then
    data.rows.map (fun d =>
      ⟨some d.era, some d.region, some d.labels,
        match yrows.find? (fun r => r.1 == d.idx) with
        | some r => r.2
        | none => p.pairs.map (fun _ => none)⟩)
  else if how = "right" then
    yrows.map (fun r =>
      match data.rows.find? (fun d => d.idx == r.1) with
      | some d => ⟨some d.era, some d.region, some d.labels, r.2⟩
      | none => ⟨none, none, none, r.2⟩)
  else
    data.rows.filterMap (fun d =>
      (yrows.find? (fun r => r.1 == d.idx)).map (fun r =>
        ⟨some d.era, some d.region, some d.labels, r.2⟩))

/-- Worker for `uniqueFirst`: walk the list keeping the values already seen. -/
def uniqueAux {α : Type} [DecidableEq α] : List α → List α → List α
  | [], _ => []
  | a :: t, seen => if a ∈ seen then uniqueAux t seen else a :: uniqueAux t (a :: seen)

/-- `pandas.Series.unique`: distinct values in order of first appearance. -/
def uniqueFirst {α : Type} [DecidableEq α] (l : List α) : List α := uniqueAux l []

/-- The rendered tournament cell `add_split_pairs` writes: the raw integer
code when `as_str=False`, the tournament's string name when `as_str=True`. -/
inductive TournCell where
  | code (t : ℕ)
  | str (s : String)
deriving DecidableEq

/-- Modelled from the spec: the enumeration of the five known label-set
(tournament) identifiers 1–5 and their string names.  The conversion functions
live in the external numerox data module, not in src/; the spec only requires
an identifier-to-name bijection. -/
def tournamentNames : List String := ["bernie", "elizabeth", "jordan", "ken", "charles"]

/-- Modelled from the spec: `nx.tournament_str`, the label-set identifier to
string-name rendering. -/
def tournament_str (t : ℕ) : String := tournamentNames.getD (t - 1) ""

/-- Modelled from the spec: the inverse rendering, string name back to the
label-set identifier. -/
def tournament_number (s : String) : ℕ := tournamentNames.indexOf s + 1

/-- Read a `TournCell` back as the label-set identifier it denotes. -/
def tourn_code : TournCell → ℕ
  | .code t => t
  | .str s => tournament_number s

/-- The table `add_split_pairs` is given: the list of (name, tournament)
pairs sits either in a `pair` column (per-era table) or in the row index
(per-name summary table). -/
structure PairTable where
  pairCol : Option (List (String × ℕ))
  index : List (String × ℕ)

/-- metrics.py lines 215–226, `add_split_pairs(df, as_str=True)`: take the
pair list from the `pair` column if present, else from the index; unzip it
(`name, tournament = zip(*pairs)` — a ValueError on an empty pair list);
insert `tournament` then `name` at position 0, so `name` is the first column
and `tournament` the second, with the tournament rendered as its string name
when `as_str`. -/
def add_split_pairs (df : PairTable) (as_str : Bool) :
    Except String (List String × List TournCell) :=
  let pairs := df.pairCol.getD df.index
  if pairs.isEmpty then
    .error "not enough values to unpack"
  else
    .ok (pairs.map Prod.fst,
         if as_str then pairs.map (fun q => .str (tournament_str q.2))
         else pairs.map (fun q => .code q.2))

/-- One row of the per-era metrics table: era, pair, and the requested
statistic cells in column order. -/
structure MetricsRow where
  era : Option ℕ
  pair : String × ℕ
  cells : List (Option ℝ)

/-- The per-era metrics table, with the optional `name`/`tournament` columns
`add_split_pairs` inserts. -/
structure MpeResult where
  rows : List MetricsRow
  nameCol : Option (List String)
  tournCol : Option (List TournCell)

/-- The body of the pair loop of metrics.py lines 50–61: pick the scoring
tournament (the pair's own, or the forced override), extract the era's label
and prediction arrays, and run `calc_metrics_arrays`. -/
noncomputable def eraRow (df_era : List MRow) (tournament : Option ℕ)
    (columns : List String) (era : Option ℕ) (i : ℕ) (pair : String × ℕ) :
    Except String MetricsRow :=
  let tourni := tournament.getD pair.2
  let y := df_era.map (fun r => r.labels.map (fun ls => ls.getD (tourni - 1) false))
  let yhat := df_era.map (fun r => r.yhats.getD i none)
  match calc_metrics_arrays y yhat columns with
  | .error e => .error e
  | .ok cells => .ok ⟨era, pair, cells⟩

/-- The body of the era loop of metrics.py lines 45–61: restrict the merged
frame to one era and emit one row per pair column. -/
noncomputable def eraRows (df : List MRow) (p : Prediction) (tournament : Option ℕ)
    (columns : List String) (era : Option ℕ) : Except String (List MetricsRow) :=
  let df_era := df.filter (fun r => r.era == era)
  emapM (fun ip => eraRow df_era tournament columns era ip.1 ip.2) p.pairs.enum

/-- metrics.py lines 15–69, `metrics_per_era(data, prediction, tournament,
join, columns, split_pairs)`: resolve the join mode (ValueError on an unknown
one), drop every prediction row containing a NaN (`df.dropna()`, pandas
default `how='any'`), merge with the data frame, group by era in order of
first appearance, emit one metrics row per (era, pair), and optionally split
the pair column.  The era/region string renderings (`era_as_str`,
`region_as_str`, both defaulting to False, backed by lookup tables outside
src/) are omitted; every claim below concerns the default integer-coded path. -/
noncomputable def metrics_per_era (data : Data) (p : Prediction) (tournament : Option ℕ)
    (join : String) (columns : List String) (split_pairs : Bool) :
    Except String (MpeResult × List (Option ℕ)) :=
  let howE : Except String String :=
    if join = "data" then .ok "left"
    else if join = "yhat" then .ok "right"
    else if join = "inner" then .ok "inner"
    else .error "`join` method not recognized"
  match howE with
  | .error e => .error e
  | .ok how =>
    let yhats_df := p.rows.filter (fun r => r.2.all Option.isSome)
    let df := mergeRows data p yhats_df how
    let regions := uniqueFirst (df.map (fun r => r.region))
    let eras := uniqueFirst (df.map (fun r => r.era))
    match emapM (fun era => eraRows df p tournament columns era) eras with
    | .error e => .error e
    | .ok rowBlocks =>
      let rows := rowBlocks.flatten
      if split_pairs then
        match add_split_pairs ⟨some (rows.map (fun r => r.pair)), []⟩ true with
        | .error e => .error e
        | .ok nt => .ok (⟨rows, some nt.1, some nt.2⟩, regions)
      else
        .ok (⟨rows, none, none⟩, regions)

/-- The per-pair `consis` computation of metrics.py lines 112–113, as a
function of one column of the era-by-pair log-loss pivot: pandas evaluates
`(pivot < LOGLOSS_BENCHMARK)` cellwise (a NaN cell compares False) and takes
the column mean of the resulting booleans, whose denominator is the full
number of eras. -/
noncomputable def consisStat (c : List (Option ℝ)) : ℝ :=
  rmean (c.map (fun o =>
    match o with
    | some v => if v < LOGLOSS_BENCHMARK then (1 : ℝ) else 0
    | none => 0))

/-- The per-pair `sharpe` computation of metrics.py lines 114–115, as a
function of one column of the log-loss pivot:
`(LOGLOSS_BENCHMARK - pivot).mean(axis=0) / pivot.std(axis=0)`, where the
pandas mean and standard deviation skip NaN cells and `std` uses `ddof=1`. -/
noncomputable def sharpeStat (c : List (Option ℝ)) : ℝ :=
  rmean ((c.map (Option.map (fun v => LOGLOSS_BENCHMARK - v))).filterMap id) /
    Real.sqrt (sample_var (c.filterMap id))

/-- The sharpe formula in the words of the spec: benchmark minus the mean
per-era log-loss, divided by the sample standard deviation (`ddof=1`) of the
per-era log-loss values. -/
noncomputable def sharpe_spec (l : List ℝ) : ℝ :=
  (LOGLOSS_BENCHMARK - rmean l) / Real.sqrt (sample_var l)

/-- The dataset as `concordance` consumes it: per row an index, the region's
string name (`data['validation']` etc. selects by name), and the feature
vector `data.x`. -/
structure CData where
  rows : List (ℕ × String × List ℚ)

/-- `data[region]` of metrics.py line 190: the rows of one named region,
keeping index and features. -/
def region_rows (d : CData) (reg : String) : List (ℕ × List ℚ) :=
  d.rows.filterMap (fun r => if r.2.1 = reg then some (r.1, r.2.2) else none)

/-- `prediction.df.loc[d.df.index].values` of metrics.py line 193: the
prediction row aligned to a data index (missing alignment is a caller error,
modelled as an all-NaN row). -/
def pred_row (p : Prediction) (idx : ℕ) : List (Option ℚ) :=
  match p.rows.find? (fun r => r.1 == idx) with
  | some r => r.2
  | none => p.pairs.map (fun _ => none)

/-- The cluster loop of metrics.py lines 197–206 for pair column `i`: for
every cluster id present in the validation region (in order of first
appearance — a Python set; the mean taken later does not depend on the
order), restrict each region's column-`i` predictions to that cluster and
take the maximum of the KS distances validation-vs-test, validation-vs-live
and live-vs-test.  The fitted `MiniBatchKMeans.predict` and `ks_2samp`
statistic are the external `cluster` and `ks` parameters. -/
def cluster_scores (cluster : List ℚ → ℕ) (ks : List (Option ℚ) → List (Option ℚ) → ℝ)
    (d : CData) (p : Prediction) (i : ℕ) : List ℝ :=
  let reg0 := region_rows d "validation"
  let reg1 := region_rows d "test"
  let reg2 := region_rows d "live"
  let cl0 := reg0.map (fun r => cluster r.2)
  let cl1 := reg1.map (fun r => cluster r.2)
  let cl2 := reg2.map (fun r => cluster r.2)
  let yh0 := reg0.map (fun r => (pred_row p r.1).getD i none)
  let yh1 := reg1.map (fun r => (pred_row p r.1).getD i none)
  let yh2 := reg2.map (fun r => (pred_row p r.1).getD i none)
  (uniqueFirst cl0).map (fun j =>
    let a := (cl0.zip yh0).filterMap (fun q => if q.1 = j then some q.2 else none)
    let b := (cl1.zip yh1).filterMap (fun q => if q.1 = j then some q.2 else none)
    let c := (cl2.zip yh2).filterMap (fun q => if q.1 = j then some q.2 else none)
    max (max (ks a b) (ks a c)) (ks c b))

/-- The raw concordance score of each pair (metrics.py line 207,
`np.mean(ks)`), in pair-column order, before sorting. -/
noncomputable def concord_list (cluster : List ℚ → ℕ)
    (ks : List (Option ℚ) → List (Option ℚ) → ℝ) (d : CData) (p : Prediction) : List ℝ :=
  (List.range p.pairs.length).map (fun i => rmean (cluster_scores cluster ks d p i))

/-- metrics.py lines 176–212, `concordance(data, prediction)`: one row per
pair holding its score in the single `concord` column, finally
`sort_values('concord')` — ascending sort on the score.  The function never
compares a score against the documented 0.12 pass threshold. -/
noncomputable def concordance (cluster : List ℚ → ℕ)
    (ks : List (Option ℚ) → List (Option ℚ) → ℝ) (d : CData) (p : Prediction) :
    List ((String × ℕ) × ℝ) :=
  (p.pairs.zip (concord_list cluster ks d p)).mergeSort (fun a b => decide (a.2 ≤ b.2))

-- Sanity examples for the threshold semantics of `acc`.
example : knownMetric "bogus" = false := by decide
example : acc_threshold (some (1 / 2)) = true := by simp [acc_threshold]
example : acc_threshold (some (4 / 10)) = false := by
  simp only [acc_threshold, decide_eq_false_iff_not]
  norm_num
example : acc_threshold none = false := rfl

-- ----------------------------------------------------------------------
-- Shared helper lemmas.
-- ----------------------------------------------------------------------

theorem filterMap_id_map_some {α : Type} (l : List α) :
    (l.map some).filterMap id = l := by
  simp

theorem all_isSome_map_some {α : Type} (l : List α) :
    (l.map some).all Option.isSome = true := by
  induction l with
  | nil => rfl
  | cons a t ih => simp [ih]

theorem filterMap_id_map_optionMap {α β : Type} (f : α → β) (c : List (Option α)) :
    (c.map (Option.map f)).filterMap id = (c.filterMap id).map f := by
  simp [List.filterMap_map, List.map_filterMap]

theorem sum_map_const_sub (B : ℝ) (l : List ℝ) :
    (l.map (fun v => B - v)).sum = l.length * B - l.sum := by
  induction l with
  | nil => simp
  | cons a t ih => simp [ih]; ring

theorem rmean_map_const_sub (B : ℝ) (l : List ℝ) (h : l ≠ []) :
    rmean (l.map (fun v => B - v)) = B - rmean l := by
  have hn : (l.length : ℝ) ≠ 0 := Nat.cast_ne_zero.mpr (List.length_pos.mpr h).ne'
  simp only [rmean, List.length_map, sum_map_const_sub]
  field_simp
  ring

theorem consis_num (c : List (Option ℝ)) :
    (c.map (fun o =>
        match o with
        | some v => if v < LOGLOSS_BENCHMARK then (1 : ℝ) else 0
        | none => 0)).sum
      = (((c.filterMap id).filter (fun v => decide (v < LOGLOSS_BENCHMARK))).length : ℝ) := by
  induction c with
  | nil => simp
  | cons a t ih =>
    cases a with
    | none => simpa using ih
    | some v =>
      by_cases h : v < LOGLOSS_BENCHMARK
      · simp [h, ih]
        ring
      · simp [h, ih]

theorem emapM_ok_of_forall {α β : Type} {f : α → Except String β} {g : α → β} :
    ∀ {l : List α}, (∀ a ∈ l, f a = .ok (g a)) → emapM f l = .ok (l.map g) := by
  intro l h
  induction l with
  | nil => rfl
  | cons a t ih =>
    have ha := h a (List.mem_cons_self a t)
    have ht := ih (fun b hb => h b (List.mem_cons_of_mem a hb))
    simp [emapM, ha, ht]

theorem emapM_cons_error {α β : Type} {f : α → Except String β} {a : α} {l : List α}
    {e : String} (h : f a = .error e) : emapM f (a :: l) = .error e := by
  simp [emapM, h]

theorem calc_acc_eq (y : List Bool) (yhat : List (Option ℚ)) (hy : y ≠ []) :
    calc_metrics_arrays (y.map some) yhat ["acc"]
      = .ok [some ((accuracy_score y (yhat.map acc_threshold) : ℚ) : ℝ)] := by
  have hys := all_isSome_map_some y
  have hye : (y.map some).isEmpty = false := by simp [List.isEmpty_iff, hy]
  simp [calc_metrics_arrays, emapM, calc_metric_col, hys, hye]

-- ----------------------------------------------------------------------
-- C5: consis is the fraction of eras strictly below the benchmark.
-- ----------------------------------------------------------------------

/-- C5: for every pair the `consis` summary statistic is the fraction of eras
whose per-era log-loss is strictly below the 0.693 benchmark (the mean of the
boolean indicator across eras); on the per-era log-loss values
[0.5, 0.8, 0.6, 0.9] it equals 0.5. -/
theorem c5_consis_fraction :
    (∀ l : List ℝ, consisStat (l.map some)
        = ((l.filter (fun v => decide (v < LOGLOSS_BENCHMARK))).length : ℝ) / l.length)
  ∧ consisStat [some (5 / 10), some (8 / 10), some (6 / 10), some (9 / 10)] = 1 / 2 := by
  constructor
  · intro l
    unfold consisStat rmean
    rw [consis_num, List.length_map, List.length_map, filterMap_id_map_some]
  · unfold consisStat rmean LOGLOSS_BENCHMARK
    norm_num

-- ----------------------------------------------------------------------
-- C9: the consis denominator is the total number of eras; NaN counts as
-- not beating the benchmark.
-- ----------------------------------------------------------------------

/-- C9: `consis` always divides by the total number of eras in the pivot; an
era with NaN log-loss counts as not beating the benchmark (NaN `<` 0.693 is
False) instead of being excluded, so a pair with log-loss 0.5 in one era and
NaN in the other gets consis 1/2, not 1. -/
theorem c9_consis_total_denominator :
    (∀ c : List (Option ℝ), consisStat c
        = (((c.filterMap id).filter (fun v => decide (v < LOGLOSS_BENCHMARK))).length : ℝ)
            / c.length)
  ∧ consisStat [some (5 / 10), none] = 1 / 2 := by
  constructor
  · intro c
    unfold consisStat rmean
    rw [consis_num, List.length_map]
  · unfold consisStat rmean LOGLOSS_BENCHMARK
    norm_num

-- ----------------------------------------------------------------------
-- C3: sharpe = (benchmark - mean logloss) / sample std (ddof=1).
-- ----------------------------------------------------------------------

/-- C3: for every pair the `sharpe` summary statistic equals
(0.693 − mean of the per-era log-loss values) divided by the sample standard
deviation (`ddof=1`) of those values, and on per-era log-loss [0.6, 0.7] it is
within 0.001 of 0.608. -/
theorem c3_sharpe_formula (c : List (Option ℝ)) (h : c.filterMap id ≠ []) :
    sharpeStat c = sharpe_spec (c.filterMap id) ∧
    |sharpeStat [some (6 / 10), some (7 / 10)] - 608 / 1000| < 1 / 1000 := by
  constructor
  · unfold sharpeStat sharpe_spec
    rw [filterMap_id_map_optionMap, rmean_map_const_sub _ _ h]
  · have hobs : ([some ((6 : ℝ) / 10), some (7 / 10)].filterMap id) = [6 / 10, 7 / 10] := by
      simp
    have hvar : sample_var [(6 : ℝ) / 10, 7 / 10] = 1 / 200 := by
      unfold sample_var rmean
      norm_num
    have hnum :
        rmean (([some ((6 : ℝ) / 10), some (7 / 10)].map
            (Option.map (fun v => LOGLOSS_BENCHMARK - v))).filterMap id) = 43 / 1000 := by
      unfold LOGLOSS_BENCHMARK
      simp [rmean]
      norm_num
    have hsh : sharpeStat [some (6 / 10), some (7 / 10)]
        = (43 / 1000) / Real.sqrt (1 / 200) := by
      unfold sharpeStat
      rw [hnum, hobs, hvar]
    rw [hsh]
    have hlo : (707 : ℝ) / 10000 < Real.sqrt (1 / 200) :=
      (Real.lt_sqrt (by norm_num : (0:ℝ) ≤ 707 / 10000)).mpr
        (by norm_num : ((707 : ℝ) / 10000) ^ 2 < 1 / 200)
    have hhi : Real.sqrt (1 / 200) < 70711 / 1000000 :=
      (Real.sqrt_lt' (by norm_num : (0:ℝ) < 70711 / 1000000)).mpr
        (by norm_num : (1 : ℝ) / 200 < (70711 / 1000000) ^ 2)
    have hpos : (0 : ℝ) < Real.sqrt (1 / 200) := by linarith
    rw [abs_lt]
    constructor
    · have hb : (607 : ℝ) / 1000 * Real.sqrt (1 / 200) < 43 / 1000 := by nlinarith
      have hq : (607 : ℝ) / 1000 < 43 / 1000 / Real.sqrt (1 / 200) :=
        (lt_div_iff₀ hpos).mpr hb
      linarith
    · have hb : (43 : ℝ) / 1000 < 609 / 1000 * Real.sqrt (1 / 200) := by nlinarith
      have hq : (43 : ℝ) / 1000 / Real.sqrt (1 / 200) < 609 / 1000 :=
        (div_lt_iff₀ hpos).mpr hb
      linarith

/-- Witness for C3 at the concrete per-era log-loss column [0.6, 0.7]. -/
theorem c3_witness :
    sharpeStat [some (6 / 10), some (7 / 10)]
        = sharpe_spec ([some ((6 : ℝ) / 10), some (7 / 10)].filterMap id) ∧
    |sharpeStat [some (6 / 10), some (7 / 10)] - 608 / 1000| < 1 / 1000 :=
  c3_sharpe_formula [some (6 / 10), some (7 / 10)] (by simp)

-- ----------------------------------------------------------------------
-- C4: logloss_pass is the strict comparison logloss < 0.693, NaN exactly
-- when logloss is NaN.
-- ----------------------------------------------------------------------

/-- C4: for every (era, pair) group, `logloss_pass` is `logloss < 0.693`
strictly (a log-loss equal to the benchmark does not pass), and it is NaN
exactly when `logloss` is NaN. -/
theorem c4_logloss_pass_strict (y : List (Option Bool)) (yhat : List (Option ℚ)) :
    ∃ ll pass : Option ℝ,
      calc_metrics_arrays y yhat ["logloss", "logloss_pass"] = .ok [ll, pass] ∧
      (pass = none ↔ ll = none) ∧
      (∀ v, ll = some v → pass = some (if v < LOGLOSS_BENCHMARK then (1 : ℝ) else 0)) ∧
      (∀ v, ll = some v → ¬ v < LOGLOSS_BENCHMARK → pass = some 0) := by
  by_cases hd : llDefined y yhat = true
  · refine ⟨some (log_loss (y.filterMap id) (yhat.filterMap id)),
      some (if log_loss (y.filterMap id) (yhat.filterMap id) < LOGLOSS_BENCHMARK
            then (1 : ℝ) else 0), ?_, by simp, ?_, ?_⟩
    · simp [calc_metrics_arrays, emapM, calc_metric_col, hd]
    · intro v hv
      rw [Option.some_inj] at hv
      rw [hv]
    · intro v hv hlt
      rw [Option.some_inj] at hv
      rw [hv, if_neg hlt]
  · rw [Bool.not_eq_true] at hd
    refine ⟨none, none, ?_, by simp, ?_, ?_⟩
    · simp [calc_metrics_arrays, emapM, calc_metric_col, hd]
    · intro v hv
      simp at hv
    · intro v hv _
      simp at hv

/-- Witness for C4 at a concrete group: one positive, one negative row, both
predicted 1/2. -/
theorem c4_witness :
    ∃ ll pass : Option ℝ,
      calc_metrics_arrays [some true, some false] [some (1 / 2), some (1 / 2)]
          ["logloss", "logloss_pass"] = .ok [ll, pass] ∧
      (pass = none ↔ ll = none) ∧
      (∀ v, ll = some v → pass = some (if v < LOGLOSS_BENCHMARK then (1 : ℝ) else 0)) ∧
      (∀ v, ll = some v → ¬ v < LOGLOSS_BENCHMARK → pass = some 0) :=
  c4_logloss_pass_strict [some true, some false] [some (1 / 2), some (1 / 2)]

-- ----------------------------------------------------------------------
-- C10: ystd is the population standard deviation (ddof=0), unlike the
-- sample standard deviation (ddof=1) in the sharpe denominator.
-- ----------------------------------------------------------------------

/-- C10: the `ystd` per-group statistic is the population standard deviation
of `yhat` (divisor n, numpy default `ddof=0`) — on a length-1 array it is 0,
not NaN — while the sharpe denominator uses the sample standard deviation
(`ddof=1`, `sample_var`): on [0, 1] the population variance is 1/4 and its
root 1/2, the sample variance is 1/2, whose root differs from 1/2. -/
theorem c10_ystd_population_convention :
    (∀ x : ℚ, calc_metrics_arrays [some false] [some x] ["ystd"] = .ok [some 0])
  ∧ (∀ l : List ℚ, l ≠ [] →
      calc_metrics_arrays [some false] (l.map some) ["ystd"]
        = .ok [some (Real.sqrt ((pop_var l : ℚ) : ℝ))])
  ∧ pop_var [0, 1] = 1 / 4
  ∧ sample_var [(0 : ℝ), 1] = 1 / 2
  ∧ Real.sqrt (((1 : ℝ) / 4)) = 1 / 2
  ∧ Real.sqrt ((1 : ℝ) / 2) ≠ 1 / 2 := by
  have hq : Real.sqrt (((1 : ℝ) / 4)) = 1 / 2 := by
    rw [show (1 : ℝ) / 4 = (1 / 2) ^ 2 by norm_num, Real.sqrt_sq (by norm_num)]
  refine ⟨?_, ?_, ?_, ?_, hq, ?_⟩
  · intro x
    have hp : pop_var [x] = 0 := by
      unfold pop_var qmean
      simp
    simp [calc_metrics_arrays, emapM, calc_metric_col, hp]
  · intro l hl
    have h1 : (l.map some).all Option.isSome = true := all_isSome_map_some l
    have h2 : (l.map some).isEmpty = false := by
      simp [List.isEmpty_iff, hl]
    simp [calc_metrics_arrays, emapM, calc_metric_col, h1, h2]
  · unfold pop_var qmean
    norm_num
  · unfold sample_var rmean
    norm_num
  · intro h
    have h2 := Real.sq_sqrt (by norm_num : (0 : ℝ) ≤ 1 / 2)
    rw [h] at h2
    norm_num at h2

-- ----------------------------------------------------------------------
-- C2: degenerate single-class ground truth.
-- ----------------------------------------------------------------------

/-- C2 counterexample: on the single-class group y = [0,0,0,0] with
yhat = [0.1, 0.2, 0.3, 0.4], the claim says `acc` resolves to NaN, but the
code computes it normally (`accuracy_score` is defined for single-class
ground truth and no exception is raised): the accuracy is 1, not NaN. -/
theorem c2_counterexample :
    calc_metrics_arrays [some false, some false, some false, some false]
        [some (1 / 10), some (2 / 10), some (3 / 10), some (4 / 10)] ["acc"]
      = .ok [some 1] := by
  have hth : ([some ((1 : ℚ) / 10), some (2 / 10), some (3 / 10), some (4 / 10)].map
      acc_threshold) = [false, false, false, false] := by
    simp only [List.map_cons, List.map_nil, acc_threshold]
    norm_num
  have hy : [false, false, false, false] ≠ ([] : List Bool) := by decide
  have := calc_acc_eq [false, false, false, false]
    [some ((1 : ℚ) / 10), some (2 / 10), some (3 / 10), some (4 / 10)] hy
  rw [hth] at this
  rw [show ([some false, some false, some false, some false] : List (Option Bool))
      = [false, false, false, false].map some from rfl]
  rw [this]
  norm_num [accuracy_score]

/-- C2 as the code has it: on a single-class group, `logloss` and `auc`
resolve to NaN without raising, `acc` computes normally (thresholding `yhat`
at 0.5 and scoring accuracy — sklearn's `accuracy_score` is defined for
single-class ground truth), and `ymin`/`ymax`/`ymean`/`ystd`/`length` compute
normally from `yhat`. -/
theorem c2_amended (y : List Bool) (yhat : List ℚ)
    (hsingle : ¬ (true ∈ y ∧ false ∈ y)) (hy : y ≠ []) (hyh : yhat ≠ []) :
    calc_metrics_arrays (y.map some) (yhat.map some)
        ["logloss", "auc", "acc", "ymin", "ymax", "ymean", "ystd", "length"]
      = .ok [none, none,
             some ((accuracy_score y (yhat.map (fun v => acc_threshold (some v))) : ℚ) : ℝ),
             some ((qlist_min yhat : ℚ) : ℝ),
             some ((qlist_max yhat : ℚ) : ℝ),
             some ((qmean yhat : ℚ) : ℝ),
             some (Real.sqrt ((pop_var yhat : ℚ) : ℝ)),
             some ((yhat.length : ℕ) : ℝ)] := by
  have hll : llDefined (y.map some) (yhat.map some) = false := by
    unfold llDefined
    rw [filterMap_id_map_some]
    rcases not_and_or.mp hsingle with h | h
    · simp [h]
    · simp [h]
  have hys : (y.map some).all Option.isSome = true := all_isSome_map_some y
  have hyhs : (yhat.map some).all Option.isSome = true := all_isSome_map_some yhat
  have hye : (y.map some).isEmpty = false := by simp [List.isEmpty_iff, hy]
  have hyhe : (yhat.map some).isEmpty = false := by simp [List.isEmpty_iff, hyh]
  simp [calc_metrics_arrays, emapM, calc_metric_col, hll, hys, hyhs, hye, hyhe,
    List.map_map, Function.comp_def]

/-- Witness for C2's amended statement at y = [0,0,0,0],
yhat = [0.1, 0.2, 0.3, 0.4]. -/
theorem c2_witness :
    (¬ (true ∈ [false, false, false, false] ∧ false ∈ [false, false, false, false]))
  ∧ ([false, false, false, false] ≠ ([] : List Bool))
  ∧ ([(1 : ℚ) / 10, 2 / 10, 3 / 10, 4 / 10] ≠ ([] : List ℚ))
  ∧ calc_metrics_arrays ([false, false, false, false].map some)
        ([(1 : ℚ) / 10, 2 / 10, 3 / 10, 4 / 10].map some)
        ["logloss", "auc", "acc", "ymin", "ymax", "ymean", "ystd", "length"]
      = .ok [none, none,
             some ((accuracy_score [false, false, false, false]
                ([(1 : ℚ) / 10, 2 / 10, 3 / 10, 4 / 10].map
                  (fun v => acc_threshold (some v))) : ℚ) : ℝ),
             some ((qlist_min [(1 : ℚ) / 10, 2 / 10, 3 / 10, 4 / 10] : ℚ) : ℝ),
             some ((qlist_max [(1 : ℚ) / 10, 2 / 10, 3 / 10, 4 / 10] : ℚ) : ℝ),
             some ((qmean [(1 : ℚ) / 10, 2 / 10, 3 / 10, 4 / 10] : ℚ) : ℝ),
             some (Real.sqrt ((pop_var [(1 : ℚ) / 10, 2 / 10, 3 / 10, 4 / 10] : ℚ) : ℝ)),
             some (([(1 : ℚ) / 10, 2 / 10, 3 / 10, 4 / 10].length : ℕ) : ℝ)] :=
  ⟨by decide, by decide, by exact List.cons_ne_nil _ _,
    c2_amended [false, false, false, false] [(1 : ℚ) / 10, 2 / 10, 3 / 10, 4 / 10]
      (by decide) (by decide) (by exact List.cons_ne_nil _ _)⟩

-- ----------------------------------------------------------------------
-- C7: add_split_pairs round-trip.
-- ----------------------------------------------------------------------

theorem tournament_roundtrip (t : ℕ) (h1 : 1 ≤ t) (h2 : t ≤ 5) :
    tournament_number (tournament_str t) = t := by
  interval_cases t <;> rfl

/-- C7 counterexample: on a zero-row table (an empty pair list) the claim
promises the two split columns, but `name, tournament = zip(*pairs)` raises a
ValueError, so `add_split_pairs` fails instead of returning a table. -/
theorem c7_counterexample :
    add_split_pairs ⟨some [], []⟩ true = .error "not enough values to unpack" := rfl

/-- C7 as the code has it: for every table with a nonempty (name, label-set)
pair list (in a `pair` column or in the index, with known label-set
identifiers), `add_split_pairs` returns the `name` and `tournament` leading
columns, and zipping them — reading the rendered tournament cell back as its
identifier — reconstructs the original pair list exactly, in order.  On an
empty table it raises instead. -/
theorem c7_amended (df : PairTable) (as_str : Bool)
    (hne : df.pairCol.getD df.index ≠ [])
    (hval : ∀ q ∈ df.pairCol.getD df.index, 1 ≤ q.2 ∧ q.2 ≤ 5) :
    ∃ names tourns, add_split_pairs df as_str = .ok (names, tourns) ∧
      names.zip (tourns.map tourn_code) = df.pairCol.getD df.index := by
  have he : (df.pairCol.getD df.index).isEmpty = false := by
    simp [List.isEmpty_iff, hne]
  cases as_str with
  | false =>
    refine ⟨(df.pairCol.getD df.index).map Prod.fst,
      (df.pairCol.getD df.index).map (fun q => .code q.2), ?_, ?_⟩
    · simp [add_split_pairs, he]
    · rw [List.map_map]
      show ((df.pairCol.getD df.index).map Prod.fst).zip
          ((df.pairCol.getD df.index).map (fun q => q.2)) = df.pairCol.getD df.index
      rw [List.zip_map']
      simp
  | true =>
    refine ⟨(df.pairCol.getD df.index).map Prod.fst,
      (df.pairCol.getD df.index).map (fun q => .str (tournament_str q.2)), ?_, ?_⟩
    · simp [add_split_pairs, he]
    · rw [List.map_map]
      have hmap : (df.pairCol.getD df.index).map
            (tourn_code ∘ fun q => TournCell.str (tournament_str q.2))
          = (df.pairCol.getD df.index).map (fun q => q.2) := by
        apply List.map_congr_left
        intro q hq
        exact tournament_roundtrip q.2 (hval q hq).1 (hval q hq).2
      rw [hmap]
      show ((df.pairCol.getD df.index).map Prod.fst).zip
          ((df.pairCol.getD df.index).map (fun q => q.2)) = df.pairCol.getD df.index
      rw [List.zip_map']
      simp

/-- Witness for C7's amended statement on the one-pair table
[("model", tournament 1)] with the default string rendering. -/
theorem c7_witness :
    ((PairTable.mk (some [("model", 1)]) []).pairCol.getD
        (PairTable.mk (some [("model", 1)]) []).index ≠ []) ∧
    (∀ q ∈ (PairTable.mk (some [("model", 1)]) []).pairCol.getD
        (PairTable.mk (some [("model", 1)]) []).index, 1 ≤ q.2 ∧ q.2 ≤ 5) ∧
    ∃ names tourns,
      add_split_pairs ⟨some [("model", 1)], []⟩ true = .ok (names, tourns) ∧
      names.zip (tourns.map tourn_code)
        = (PairTable.mk (some [("model", 1)]) []).pairCol.getD
            (PairTable.mk (some [("model", 1)]) []).index :=
  ⟨List.cons_ne_nil _ _, by decide,
    c7_amended ⟨some [("model", 1)], []⟩ true (List.cons_ne_nil _ _) (by decide)⟩

-- ----------------------------------------------------------------------
-- C8: concordance output shape, ascending sort, no thresholding.
-- ----------------------------------------------------------------------

/-- C8: `concordance` returns one row per pair with the single `concord`
score column, sorted ascending by the score; the scores are exactly the raw
per-pair means of the cluster maxima (a permutation of `concord_list`) — no
0.12 pass threshold is applied. -/
theorem c8_concordance_shape (cluster : List ℚ → ℕ)
    (ks : List (Option ℚ) → List (Option ℚ) → ℝ) (d : CData) (p : Prediction) :
    (concordance cluster ks d p).length = p.pairs.length ∧
    ((concordance cluster ks d p).map Prod.fst).Perm p.pairs ∧
    ((concordance cluster ks d p).map Prod.snd).Perm (concord_list cluster ks d p) ∧
    List.Pairwise (fun a b : (String × ℕ) × ℝ => a.2 ≤ b.2) (concordance cluster ks d p) := by
  have hlen : (concord_list cluster ks d p).length = p.pairs.length := by
    simp [concord_list]
  have hperm : (concordance cluster ks d p).Perm
      (p.pairs.zip (concord_list cluster ks d p)) := by
    unfold concordance
    exact List.mergeSort_perm _ _
  have hziplen : (p.pairs.zip (concord_list cluster ks d p)).length = p.pairs.length := by
    simp [List.length_zip, hlen]
  refine ⟨?_, ?_, ?_, ?_⟩
  · rw [hperm.length_eq, hziplen]
  · have h := hperm.map Prod.fst
    rwa [List.map_fst_zip _ _ (le_of_eq hlen.symm)] at h
  · have h := hperm.map Prod.snd
    rwa [List.map_snd_zip _ _ (le_of_eq hlen)] at h
  · have hs : List.Pairwise
        (fun a b : (String × ℕ) × ℝ => (decide (a.2 ≤ b.2)) = true)
        (concordance cluster ks d p) := by
      unfold concordance
      exact List.sorted_mergeSort
        (fun a b c hab hbc => by
          simp only [decide_eq_true_eq] at hab hbc ⊢
          exact le_trans hab hbc)
        (fun a b => by
          simp only [Bool.or_eq_true, decide_eq_true_eq]
          exact le_total a.2 b.2)
        (p.pairs.zip (concord_list cluster ks d p))
    exact hs.imp (fun h => of_decide_eq_true h)

-- ----------------------------------------------------------------------
-- C6: unknown join mode / unknown statistic name.
-- ----------------------------------------------------------------------

theorem calc_col_unknown (y : List (Option Bool)) (yhat : List (Option ℚ)) {c : String}
    (hk : knownMetric c = false) :
    calc_metric_col y yhat c = .error ("unknown metric (" ++ c ++ ")") := by
  have h := hk
  simp only [knownMetric, decide_eq_false_iff_not, List.mem_cons,
    List.not_mem_nil, or_false] at h
  push_neg at h
  obtain ⟨h1, h2, h3, h4, h5, h6, h7, h8, h9⟩ := h
  simp [calc_metric_col, h1, h2, h3, h4, h5, h6, h7, h8, h9]

theorem emapM_error_of_mem {α β : Type} {f : α → Except String β} :
    ∀ {l : List α}, (∃ a ∈ l, ∃ e, f a = .error e) → ∃ m, emapM f l = .error m := by
  intro l
  induction l with
  | nil =>
    intro h
    simp at h
  | cons a t ih =>
    intro h
    cases hfa : f a with
    | error e => exact ⟨e, emapM_cons_error hfa⟩
    | ok b =>
      have ht : ∃ a' ∈ t, ∃ e, f a' = .error e := by
        rcases h with ⟨a', ha', e, he⟩
        rcases List.mem_cons.mp ha' with rfl | h'
        · rw [hfa] at he
          cases he
        · exact ⟨a', h', e, he⟩
      rcases ih ht with ⟨m, hm⟩
      exact ⟨m, by simp [emapM, hfa, hm]⟩

theorem uniqueAux_eq_nil_of_subset {α : Type} [DecidableEq α] :
    ∀ (t seen : List α), (∀ b ∈ t, b ∈ seen) → uniqueAux t seen = [] := by
  intro t
  induction t with
  | nil => intro seen _; rfl
  | cons b t' ih =>
    intro seen h
    have hb : b ∈ seen := h b (List.mem_cons_self b t')
    simp only [uniqueAux, if_pos hb]
    exact ih seen (fun x hx => h x (List.mem_cons_of_mem b hx))

theorem uniqueFirst_const {α : Type} [DecidableEq α] {l : List α} {x : α}
    (hne : l ≠ []) (hall : ∀ a ∈ l, a = x) : uniqueFirst l = [x] := by
  rcases List.exists_cons_of_ne_nil hne with ⟨a, t, rfl⟩
  have hax : a = x := hall a (List.mem_cons_self a t)
  subst hax
  show uniqueAux (a :: t) [] = [a]
  simp only [uniqueAux, List.not_mem_nil, if_neg (fun h => h)]
  rw [uniqueAux_eq_nil_of_subset t [a]
    (fun b hb => by rw [hall b (List.mem_cons_of_mem a hb)]; exact List.mem_cons_self a [])]

theorem uniqueFirst_ne_nil {α : Type} [DecidableEq α] {l : List α} (h : l ≠ []) :
    uniqueFirst l ≠ [] := by
  rcases List.exists_cons_of_ne_nil h with ⟨a, t, rfl⟩
  show uniqueAux (a :: t) [] ≠ []
  simp [uniqueAux]

/-- C6 as the code has it: an unknown join mode always raises an
invalid-argument error and no results are produced; an unknown statistic name
raises an invalid-argument error whenever at least one (era, pair) group is
evaluated — the statistic names are validated inside the per-group loop, not
up front, so a call with no groups at all does not notice the unknown name. -/
theorem c6_amended :
    (∀ (d : Data) (p : Prediction) (t : Option ℕ) (cols : List String) (sp : Bool)
        (j : String), j ≠ "data" → j ≠ "yhat" → j ≠ "inner" →
        metrics_per_era d p t j cols sp = .error "`join` method not recognized")
  ∧ (∀ (d : Data) (p : Prediction) (t : Option ℕ) (cols : List String) (sp : Bool)
        (c : String), c ∈ cols → knownMetric c = false → d.rows ≠ [] → p.pairs ≠ [] →
        ∃ m, metrics_per_era d p t "data" cols sp = .error m) := by
  constructor
  · intro d p t cols sp j hj1 hj2 hj3
    simp [metrics_per_era, hj1, hj2, hj3]
  · intro d p t cols sp c hc hk hd hp
    -- the merged frame of the left join: one row per data row
    have hdf : mergeRows d p (p.rows.filter (fun r => r.2.all Option.isSome)) "left"
        ≠ [] := by
      simp [mergeRows, hd]
    have heras : uniqueFirst ((mergeRows d p
        (p.rows.filter (fun r => r.2.all Option.isSome)) "left").map (fun r => r.era))
        ≠ [] := by
      apply uniqueFirst_ne_nil
      simp [hdf]
    rcases List.exists_cons_of_ne_nil heras with ⟨e0, erest, herass⟩
    rcases List.exists_cons_of_ne_nil hp with ⟨q, qt, hq⟩
    -- the first (era, pair) group evaluates the unknown column and fails
    have hcalc : ∃ m, calc_metrics_arrays
        (((mergeRows d p (p.rows.filter (fun r => r.2.all Option.isSome)) "left").filter
            (fun r => r.era == e0)).map
          (fun r => r.labels.map (fun ls => ls.getD ((t.getD q.2) - 1) false)))
        (((mergeRows d p (p.rows.filter (fun r => r.2.all Option.isSome)) "left").filter
            (fun r => r.era == e0)).map (fun r => r.yhats.getD 0 none))
        cols = .error m := by
      apply emapM_error_of_mem
      exact ⟨c, hc, _, calc_col_unknown _ _ hk⟩
    rcases hcalc with ⟨m, hm⟩
    have hrow : eraRow ((mergeRows d p
          (p.rows.filter (fun r => r.2.all Option.isSome)) "left").filter
          (fun r => r.era == e0)) t cols e0 0 q = .error m := by
      simp only [eraRow]
      rw [hm]
    have hrows : eraRows (mergeRows d p
          (p.rows.filter (fun r => r.2.all Option.isSome)) "left") p t cols e0
        = .error m := by
      simp only [eraRows, hq, List.enum_cons]
      exact emapM_cons_error hrow
    have houter : emapM (fun era => eraRows (mergeRows d p
          (p.rows.filter (fun r => r.2.all Option.isSome)) "left") p t cols era)
        (uniqueFirst ((mergeRows d p
          (p.rows.filter (fun r => r.2.all Option.isSome)) "left").map (fun r => r.era)))
        = .error m := by
      rw [herass]
      exact emapM_cons_error hrows
    refine ⟨m, ?_⟩
    simp [metrics_per_era, houter]

/-- C6 counterexample: a call with the unknown statistic name "bogus" but no
pair columns (so no (era, pair) group is ever evaluated) and
`split_pairs=False` returns an empty result instead of raising. -/
theorem c6_counterexample :
    metrics_per_era ⟨[⟨0, 1, 0, [false]⟩]⟩ ⟨[], []⟩ none "data" ["bogus"] false
      = .ok (⟨[], none, none⟩, [some 0]) := rfl

-- ----------------------------------------------------------------------
-- C1: which prediction rows are dropped before the join.
-- ----------------------------------------------------------------------

theorem calc_length_eq (y : List (Option Bool)) (yhat : List (Option ℚ)) :
    calc_metrics_arrays y yhat ["length"] = .ok [some ((yhat.length : ℕ) : ℝ)] := by
  simp [calc_metrics_arrays, emapM, calc_metric_col]

/-- C1 counterexample: prediction row 1 predicts 0.6 for the first pair and
NaN for the second, so it has an observed prediction value, yet `df.dropna()`
(pandas default `how='any'`) drops the whole row: under `join='yhat'` the
computed `length` statistic for every pair is 1, although 2 prediction rows
carry at least one observed value. -/
theorem c1_counterexample :
    metrics_per_era ⟨[⟨0, 1, 0, [true]⟩, ⟨1, 1, 0, [false]⟩]⟩
        ⟨[("m", 1), ("k", 1)],
         [(0, [some (1 / 2), some (1 / 2)]), (1, [some (6 / 10), none])]⟩
        none "yhat" ["length"] false
      = .ok (⟨[⟨some 1, ("m", 1), [some ((1 : ℕ) : ℝ)]⟩,
               ⟨some 1, ("k", 1), [some ((1 : ℕ) : ℝ)]⟩], none, none⟩, [some 0]) ∧
    ([(0, [some ((1 : ℚ) / 2), some (1 / 2)]), (1, [some (6 / 10), none])].countP
        (fun r => r.2.any Option.isSome)) = 2 := by
  constructor
  · rfl
  · rfl

/-- C1 as the code has it: `df.dropna()` (pandas default `how='any'`) drops
every prediction row with at least one NaN prediction value; exactly the
fully-observed prediction rows survive and contribute to the metrics.  Under
`join='yhat'` (right join) on a single-era dataset covering the surviving
indices, every (era, pair) group's `length` statistic equals the number of
fully-observed prediction rows. -/
theorem c1_amended (d : Data) (p : Prediction) (e : ℕ)
    (h1 : ∀ r ∈ d.rows, r.era = e)
    (h2 : ∀ r ∈ p.rows, r.2.all Option.isSome = true →
        (d.rows.find? (fun dr => dr.idx == r.1)).isSome = true)
    (h3 : p.rows.filter (fun r => r.2.all Option.isSome) ≠ []) :
    ∃ res regs, metrics_per_era d p none "yhat" ["length"] false = .ok (res, regs) ∧
      res.rows.length = p.pairs.length ∧
      ∀ row ∈ res.rows, row.cells
        = [some (((p.rows.filter (fun r => r.2.all Option.isSome)).length : ℕ) : ℝ)] := by
  have hfind : ∀ r ∈ p.rows.filter (fun r => r.2.all Option.isSome),
      ∃ dr, d.rows.find? (fun dr' => dr'.idx == r.1) = some dr ∧ dr.era = e := by
    intro r hr
    have hobs := List.of_mem_filter hr
    have hmem := List.mem_of_mem_filter hr
    rcases Option.isSome_iff_exists.mp (h2 r hmem hobs) with ⟨dr, hdr⟩
    exact ⟨dr, hdr, h1 dr (List.mem_of_find?_eq_some hdr)⟩
  have hmr : mergeRows d p (p.rows.filter (fun r => r.2.all Option.isSome)) "right"
      = (p.rows.filter (fun r => r.2.all Option.isSome)).map
          (fun r => match d.rows.find? (fun dr => dr.idx == r.1) with
            | some dr => MRow.mk (some dr.era) (some dr.region) (some dr.labels) r.2
            | none => MRow.mk none none none r.2) := by
    simp [mergeRows]
  have hrows_era : ∀ mr ∈ (p.rows.filter (fun r => r.2.all Option.isSome)).map
        (fun r => match d.rows.find? (fun dr => dr.idx == r.1) with
          | some dr => MRow.mk (some dr.era) (some dr.region) (some dr.labels) r.2
          | none => MRow.mk none none none r.2),
      mr.era = some e := by
    intro mr hmr'
    rcases List.mem_map.mp hmr' with ⟨r, hrS, rfl⟩
    rcases hfind r hrS with ⟨dr, hdr, hde⟩
    simp only [hdr]
    rw [hde]
  have heras : uniqueFirst (((p.rows.filter (fun r => r.2.all Option.isSome)).map
        (fun r => match d.rows.find? (fun dr => dr.idx == r.1) with
          | some dr => MRow.mk (some dr.era) (some dr.region) (some dr.labels) r.2
          | none => MRow.mk none none none r.2)).map (fun r => r.era)) = [some e] := by
    apply uniqueFirst_const
    · simp [h3]
    · intro a ha
      rcases List.mem_map.mp ha with ⟨mr, hmr', rfl⟩
      exact hrows_era mr hmr'
  have hfe : ((p.rows.filter (fun r => r.2.all Option.isSome)).map
        (fun r => match d.rows.find? (fun dr => dr.idx == r.1) with
          | some dr => MRow.mk (some dr.era) (some dr.region) (some dr.labels) r.2
          | none => MRow.mk none none none r.2)).filter (fun r => r.era == some e)
      = (p.rows.filter (fun r => r.2.all Option.isSome)).map
        (fun r => match d.rows.find? (fun dr => dr.idx == r.1) with
          | some dr => MRow.mk (some dr.era) (some dr.region) (some dr.labels) r.2
          | none => MRow.mk none none none r.2) := by
    rw [List.filter_eq_self]
    intro mr hmr'
    simp [hrows_era mr hmr']
  have hrow : ∀ ip ∈ p.pairs.enum,
      eraRow ((p.rows.filter (fun r => r.2.all Option.isSome)).map
          (fun r => match d.rows.find? (fun dr => dr.idx == r.1) with
            | some dr => MRow.mk (some dr.era) (some dr.region) (some dr.labels) r.2
            | none => MRow.mk none none none r.2)) none ["length"] (some e) ip.1 ip.2
        = .ok ⟨some e, ip.2,
            [some (((p.rows.filter (fun r => r.2.all Option.isSome)).length : ℕ) : ℝ)]⟩ := by
    intro ip _
    simp only [eraRow, calc_length_eq, List.length_map]
  have herows : eraRows ((p.rows.filter (fun r => r.2.all Option.isSome)).map
        (fun r => match d.rows.find? (fun dr => dr.idx == r.1) with
          | some dr => MRow.mk (some dr.era) (some dr.region) (some dr.labels) r.2
          | none => MRow.mk none none none r.2)) p none ["length"] (some e)
      = .ok (p.pairs.enum.map (fun ip => MetricsRow.mk (some e) ip.2
          [some (((p.rows.filter (fun r => r.2.all Option.isSome)).length : ℕ) : ℝ)])) := by
    simp only [eraRows, hfe]
    exact emapM_ok_of_forall hrow
  have heras2 := heras
  rw [List.map_map] at heras2
  refine ⟨⟨p.pairs.enum.map (fun ip => MetricsRow.mk (some e) ip.2
        [some (((p.rows.filter (fun r => r.2.all Option.isSome)).length : ℕ) : ℝ)]),
      none, none⟩,
    uniqueFirst (((p.rows.filter (fun r => r.2.all Option.isSome)).map
        (fun r => match d.rows.find? (fun dr => dr.idx == r.1) with
          | some dr => MRow.mk (some dr.era) (some dr.region) (some dr.labels) r.2
          | none => MRow.mk none none none r.2)).map (fun r => r.region)), ?_, ?_, ?_⟩
  · simp [metrics_per_era, hmr, heras2, herows, emapM]
  · simp [List.enum_length]
  · intro row hrow'
    rcases List.mem_map.mp hrow' with ⟨ip, _, rfl⟩
    rfl

/-- Witness for C1's amended statement on a two-row prediction frame whose
second row holds one observed and one NaN value. -/
theorem c1_witness :
    (∀ r ∈ (Data.mk [⟨0, 1, 0, [true]⟩, ⟨1, 1, 0, [false]⟩]).rows, r.era = 1) ∧
    (∀ r ∈ (Prediction.mk [("m", 1), ("k", 1)]
        [(0, [some (1 / 2), some (1 / 2)]), (1, [some (6 / 10), none])]).rows,
      r.2.all Option.isSome = true →
      ((Data.mk [⟨0, 1, 0, [true]⟩, ⟨1, 1, 0, [false]⟩]).rows.find?
          (fun dr => dr.idx == r.1)).isSome = true) ∧
    ((Prediction.mk [("m", 1), ("k", 1)]
        [(0, [some (1 / 2), some (1 / 2)]), (1, [some (6 / 10), none])]).rows.filter
        (fun r => r.2.all Option.isSome) ≠ []) ∧
    (∃ res regs,
      metrics_per_era (Data.mk [⟨0, 1, 0, [true]⟩, ⟨1, 1, 0, [false]⟩])
          (Prediction.mk [("m", 1), ("k", 1)]
            [(0, [some (1 / 2), some (1 / 2)]), (1, [some (6 / 10), none])])
          none "yhat" ["length"] false = .ok (res, regs) ∧
      res.rows.length = (Prediction.mk [("m", 1), ("k", 1)]
          [(0, [some (1 / 2), some (1 / 2)]), (1, [some (6 / 10), none])]).pairs.length ∧
      ∀ row ∈ res.rows, row.cells
        = [some ((((Prediction.mk [("m", 1), ("k", 1)]
            [(0, [some (1 / 2), some (1 / 2)]), (1, [some (6 / 10), none])]).rows.filter
              (fun r => r.2.all Option.isSome)).length : ℕ) : ℝ)]) :=
  ⟨by decide, by decide, by decide,
    c1_amended (Data.mk [⟨0, 1, 0, [true]⟩, ⟨1, 1, 0, [false]⟩])
      (Prediction.mk [("m", 1), ("k", 1)]
        [(0, [some (1 / 2), some (1 / 2)]), (1, [some (6 / 10), none])])
      1 (by decide) (by decide) (by decide)⟩
